import Mathlib

/-!
Verification of build-box-utils: mount orchestration and privileged
command execution.

The repository ships the interface header `src/c-src/bbox-do.h`; the flag
constants and the configuration struct below are embedded from it.  The
bodies of the declared functions are not part of the provided sources, so
each operation is modelled from the specification (its doc comment says
so explicitly) and the claims are settled against those models.

The live mount table and filesystem are embedded as an explicit state
value (`FS`): the set of stat-able paths, the list of current mount
points, and two failure-injection sets (mount syscall failures and
busy unmount targets) standing for the kernel behaviours the spec
describes.
-/

namespace BboxDo

/-- Mount flag constant from `bbox-do.h` line 10: `#define BBOX_DO_MOUNT_DEV 1`. -/
def BBOX_DO_MOUNT_DEV : Nat := 1

/-- Mount flag constant from `bbox-do.h` line 11: `#define BBOX_DO_MOUNT_PROC 2`. -/
def BBOX_DO_MOUNT_PROC : Nat := 2

/-- Mount flag constant from `bbox-do.h` line 12: `#define BBOX_DO_MOUNT_SYS 4`. -/
def BBOX_DO_MOUNT_SYS : Nat := 4

/-- Mount flag constant from `bbox-do.h` line 13: `#define BBOX_DO_MOUNT_HOME 8`. -/
def BBOX_DO_MOUNT_HOME : Nat := 8

/-- Mount flag constant from `bbox-do.h` line 14: `#define BBOX_DO_MOUNT_ALL 0x0F`. -/
def BBOX_DO_MOUNT_ALL : Nat := 0x0F

/-- Largest value of a C `unsigned int` (the type of `do_mount`); used to
model the C idiom `do_mount &= ~BIT` on a 32-bit unsigned field. -/
def UINT_MAX : Nat := 2 ^ 32 - 1

/-- Configuration struct from `bbox-do.h` lines 18-22.  The two `char *`
fields may be NULL before being set, hence `Option`; `do_mount` is the
`unsigned int` flag bitmask, embedded as a `Nat`. -/
structure bbox_conf_t where
  target_dir : Option String
  home_dir : Option String
  do_mount : Nat
deriving Repr, DecidableEq

/-- Modelled from the spec: `bbox_config_new` is "constructible empty (all
fields default: no target dir, no home dir, no mount flags)"; the C body is
not in the provided sources. -/
def bbox_config_new : bbox_conf_t := ⟨none, none, 0⟩

/-- Modelled from the spec: setting the target dir "validates the path is
non-empty and stores an owned copy"; on an empty path the config is left
unchanged (the C function reports an error instead). -/
def bbox_config_set_target_dir (c : bbox_conf_t) (path : String) : bbox_conf_t :=
  if path = "" then c else { c with target_dir := some path }

/-- Modelled from the spec: setting the home dir validates non-emptiness
and stores a copy; on an empty path the config is left unchanged. -/
def bbox_config_set_home_dir (c : bbox_conf_t) (path : String) : bbox_conf_t :=
  if path = "" then c else { c with home_dir := some path }

/-- Modelled from the spec: pure bitset clear of all mount flags. -/
def bbox_config_clear_mount (c : bbox_conf_t) : bbox_conf_t :=
  { c with do_mount := 0 }

/-- Modelled from the spec: sets all four mount bits (`do_mount |= BBOX_DO_MOUNT_ALL`). -/
def bbox_config_set_mount_all (c : bbox_conf_t) : bbox_conf_t :=
  { c with do_mount := c.do_mount ||| BBOX_DO_MOUNT_ALL }

/-- Modelled from the spec: pure bitset set of the DEV bit. -/
def bbox_config_set_mount_dev (c : bbox_conf_t) : bbox_conf_t :=
  { c with do_mount := c.do_mount ||| BBOX_DO_MOUNT_DEV }

/-- Modelled from the spec: pure bitset set of the PROC bit. -/
def bbox_config_set_mount_proc (c : bbox_conf_t) : bbox_conf_t :=
  { c with do_mount := c.do_mount ||| BBOX_DO_MOUNT_PROC }

/-- Modelled from the spec: pure bitset set of the SYS bit. -/
def bbox_config_set_mount_sys (c : bbox_conf_t) : bbox_conf_t :=
  { c with do_mount := c.do_mount ||| BBOX_DO_MOUNT_SYS }

/-- Modelled from the spec: pure bitset set of the HOME bit. -/
def bbox_config_set_mount_home (c : bbox_conf_t) : bbox_conf_t :=
  { c with do_mount := c.do_mount ||| BBOX_DO_MOUNT_HOME }

/-- Modelled from the spec: pure bitset clear of the DEV bit
(`do_mount &= ~BBOX_DO_MOUNT_DEV` on a 32-bit unsigned field). -/
def bbox_config_unset_mount_dev (c : bbox_conf_t) : bbox_conf_t :=
  { c with do_mount := c.do_mount &&& (UINT_MAX ^^^ BBOX_DO_MOUNT_DEV) }

/-- Modelled from the spec: pure bitset clear of the PROC bit. -/
def bbox_config_unset_mount_proc (c : bbox_conf_t) : bbox_conf_t :=
  { c with do_mount := c.do_mount &&& (UINT_MAX ^^^ BBOX_DO_MOUNT_PROC) }

/-- Modelled from the spec: pure bitset clear of the SYS bit. -/
def bbox_config_unset_mount_sys (c : bbox_conf_t) : bbox_conf_t :=
  { c with do_mount := c.do_mount &&& (UINT_MAX ^^^ BBOX_DO_MOUNT_SYS) }

/-- Modelled from the spec: pure bitset clear of the HOME bit. -/
def bbox_config_unset_mount_home (c : bbox_conf_t) : bbox_conf_t :=
  { c with do_mount := c.do_mount &&& (UINT_MAX ^^^ BBOX_DO_MOUNT_HOME) }

/-- Modelled from the spec: bitset query of the DEV bit, returned C-style
as `do_mount & BBOX_DO_MOUNT_DEV` (`unsigned int`, nonzero means set). -/
def bbox_config_get_mount_dev (c : bbox_conf_t) : Nat :=
  c.do_mount &&& BBOX_DO_MOUNT_DEV

/-- Modelled from the spec: bitset query of the PROC bit. -/
def bbox_config_get_mount_proc (c : bbox_conf_t) : Nat :=
  c.do_mount &&& BBOX_DO_MOUNT_PROC

/-- Modelled from the spec: bitset query of the SYS bit. -/
def bbox_config_get_mount_sys (c : bbox_conf_t) : Nat :=
  c.do_mount &&& BBOX_DO_MOUNT_SYS

/-- Modelled from the spec: bitset query of the HOME bit. -/
def bbox_config_get_mount_home (c : bbox_conf_t) : Nat :=
  c.do_mount &&& BBOX_DO_MOUNT_HOME

/-- Modelled from the spec: "mount any" query, true (nonzero) iff any of
the four mount bits is set. -/
def bbox_config_get_mount_any (c : bbox_conf_t) : Nat :=
  c.do_mount &&& BBOX_DO_MOUNT_ALL

/-- One configuration operation, for stating invariants over every
sequence of configuration calls. -/
inductive ConfOp where
  | setDev | setProc | setSys | setHome
  | unsetDev | unsetProc | unsetSys | unsetHome
  | setAll | clearMount
  | setTargetDir (path : String)
  | setHomeDir (path : String)
deriving Repr, DecidableEq

/-- Apply one configuration operation, dispatching to the embedded
configuration functions. -/
def applyConfOp (c : bbox_conf_t) : ConfOp → bbox_conf_t
  | .setDev => bbox_config_set_mount_dev c
  | .setProc => bbox_config_set_mount_proc c
  | .setSys => bbox_config_set_mount_sys c
  | .setHome => bbox_config_set_mount_home c
  | .unsetDev => bbox_config_unset_mount_dev c
  | .unsetProc => bbox_config_unset_mount_proc c
  | .unsetSys => bbox_config_unset_mount_sys c
  | .unsetHome => bbox_config_unset_mount_home c
  | .setAll => bbox_config_set_mount_all c
  | .clearMount => bbox_config_clear_mount c
  | .setTargetDir p => bbox_config_set_target_dir c p
  | .setHomeDir p => bbox_config_set_home_dir c p

/-- Apply a sequence of configuration operations, left to right. -/
def applyConfOps (c : bbox_conf_t) (ops : List ConfOp) : bbox_conf_t :=
  ops.foldl applyConfOp c

/-- The four mount subsystems. -/
inductive Flag where
  | dev | proc | sys | home
deriving Repr, DecidableEq

/-- The bit constant of each subsystem, as in `bbox-do.h`. -/
def flagBit : Flag → Nat
  | .dev => BBOX_DO_MOUNT_DEV
  | .proc => BBOX_DO_MOUNT_PROC
  | .sys => BBOX_DO_MOUNT_SYS
  | .home => BBOX_DO_MOUNT_HOME

/-- The bit position of each subsystem's flag. -/
def flagIdx : Flag → Nat
  | .dev => 0
  | .proc => 1
  | .sys => 2
  | .home => 3

/-- Dispatch to the per-flag set function. -/
def setFlag (c : bbox_conf_t) : Flag → bbox_conf_t
  | .dev => bbox_config_set_mount_dev c
  | .proc => bbox_config_set_mount_proc c
  | .sys => bbox_config_set_mount_sys c
  | .home => bbox_config_set_mount_home c

/-- Dispatch to the per-flag unset function. -/
def unsetFlag (c : bbox_conf_t) : Flag → bbox_conf_t
  | .dev => bbox_config_unset_mount_dev c
  | .proc => bbox_config_unset_mount_proc c
  | .sys => bbox_config_unset_mount_sys c
  | .home => bbox_config_unset_mount_home c

/-- Dispatch to the per-flag get function (C-style nonzero-as-true value). -/
def getFlagVal (c : bbox_conf_t) : Flag → Nat
  | .dev => bbox_config_get_mount_dev c
  | .proc => bbox_config_get_mount_proc c
  | .sys => bbox_config_get_mount_sys c
  | .home => bbox_config_get_mount_home c

/-- Boolean form of a per-flag query: set iff the C getter is nonzero. -/
def queryFlag (c : bbox_conf_t) (f : Flag) : Bool :=
  decide (getFlagVal c f ≠ 0)

/-- A per-flag call: the flag touched and whether it was a set (`true`)
or an unset (`false`). -/
def FlagOp := Flag × Bool
deriving instance Repr, DecidableEq for FlagOp

/-- Apply one per-flag set/unset call. -/
def applyFlagOp (c : bbox_conf_t) (p : FlagOp) : bbox_conf_t :=
  if p.2 then setFlag c p.1 else unsetFlag c p.1

/-- Apply a sequence of per-flag set/unset calls, left to right. -/
def applyFlagOps (c : bbox_conf_t) (ops : List FlagOp) : bbox_conf_t :=
  ops.foldl applyFlagOp c

/-- Specification-side definition of the net effect of a sequence of
per-flag calls on one flag: replay the calls, keeping the last set/unset
that touches `f` (or the initial membership if none does).  A sequence
has "net effect S" when `flagAfter` of each flag agrees with membership
in `S`. -/
def flagAfter (init : Bool) : List FlagOp → Flag → Bool
  | [], _ => init
  | p :: ops, f => flagAfter (if p.1 = f then p.2 else init) ops f

/-- The ambient filesystem and mount-table state seen by the tool:
`statable` are the paths `stat` succeeds on, `mounted` the current mount
points, `mountFails` the destinations where the bind-mount syscall fails
for a reason other than a missing destination, and `busyPaths` the mount
points whose unmount fails with busy. -/
structure FS where
  statable : List String
  mounted : List String
  mountFails : List String
  busyPaths : List String
deriving Repr, DecidableEq

/-- Result of a mount or unmount walk: the new filesystem state, the
count of entries actually (un)mounted, and whether the walk finished
without reporting an error. -/
structure MountResult where
  fs : FS
  count : Nat
  ok : Bool
deriving Repr, DecidableEq

/-- Modelled from the spec: `bbox_mount_is_mounted` consults the live
mount table and reports whether `path` is itself a mount point; it
propagates an error exactly when `path` cannot be stat'd, and mutates
nothing (it is a pure function of the state).  The C body is not in the
provided sources. -/
def bbox_mount_is_mounted (fs : FS) (path : String) : Except Unit Bool :=
  if path ∈ fs.statable then .ok (decide (path ∈ fs.mounted)) else .error ()

/-- Modelled from the spec: `bbox_path_join` concatenates a base path and
a subpath (string/path-joining utility, out of the spec's core scope). -/
def bbox_path_join (base sub : String) : String :=
  base ++ "/" ++ sub

/-- One pass of the mount orchestrator over a list of destinations, in
order.  For each destination it queries `bbox_mount_is_mounted`; an
inspector error (destination cannot be stat'd, e.g. it does not exist)
stops the walk with an error and the count so far; an already-mounted
destination is skipped; otherwise the bind mount is performed, which
either fails (injected syscall failure, stopping the walk) or prepends
the destination to the mount table.  No rollback of earlier mounts is
ever attempted. -/
def runMounts (fs : FS) : List String → MountResult
  | [] => ⟨fs, 0, true⟩
  | d :: ds =>
    match bbox_mount_is_mounted fs d with
    | .error _ => ⟨fs, 0, false⟩
    | .ok true => runMounts fs ds
    | .ok false =>
      if d ∈ fs.mountFails then ⟨fs, 0, false⟩
      else
        let r := runMounts { fs with mounted := d :: fs.mounted } ds
        ⟨r.fs, r.count + 1, r.ok⟩

/-- Destination of the DEV bind mount under the sandbox root. -/
def devDest (sys_root : String) : String := bbox_path_join sys_root "dev"

/-- Destination of the PROC bind mount under the sandbox root. -/
def procDest (sys_root : String) : String := bbox_path_join sys_root "proc"

/-- Destination of the SYS bind mount under the sandbox root. -/
def sysDest (sys_root : String) : String := bbox_path_join sys_root "sys"

/-- Destination of the HOME bind mount: the home-dir-relative path under
the sandbox root. -/
def homeDest (conf : bbox_conf_t) (sys_root : String) : String :=
  bbox_path_join sys_root (conf.home_dir.getD "")

/-- The list of mount destinations implied by the configuration's flag
bitmask, in the fixed order DEV, PROC, SYS, HOME. -/
def mountDests (conf : bbox_conf_t) (sys_root : String) : List String :=
  (if bbox_config_get_mount_dev conf ≠ 0 then [devDest sys_root] else []) ++
  (if bbox_config_get_mount_proc conf ≠ 0 then [procDest sys_root] else []) ++
  (if bbox_config_get_mount_sys conf ≠ 0 then [sysDest sys_root] else []) ++
  (if bbox_config_get_mount_home conf ≠ 0 then [homeDest conf sys_root] else [])

/-- The four subsystem destinations in the fixed mount order DEV, PROC,
SYS, HOME, irrespective of which flags are set; `mountDests` of a
configuration with all four flags set equals this list. -/
def allDests (conf : bbox_conf_t) (sys_root : String) : List String :=
  [devDest sys_root, procDest sys_root, sysDest sys_root, homeDest conf sys_root]

/-- Modelled from the spec: `bbox_mount_any` (apply_mounts).  If no mount
bit is set it returns immediately with count 0 and success; otherwise it
walks the implied destinations in the fixed order DEV, PROC, SYS, HOME,
skipping already-mounted ones, and on the first failure returns an error
with the count of mounts applied before it, leaving them in place.  The
C body is not in the provided sources. -/
def bbox_mount_any (conf : bbox_conf_t) (sys_root : String) (fs : FS) : MountResult :=
  if bbox_config_get_mount_any conf = 0 then ⟨fs, 0, true⟩
  else runMounts fs (mountDests conf sys_root)

/-- The list of unmount destinations: the same four subsystems in the
reverse order HOME, SYS, PROC, DEV. -/
def umountDests (conf : bbox_conf_t) (sys_root : String) : List String :=
  [homeDest conf sys_root, sysDest sys_root, procDest sys_root, devDest sys_root]

/-- One pass of the unmount walk over a list of destinations, in order.
For each destination it consults `bbox_mount_is_mounted`; an inspector
error is reported but the walk continues; a not-mounted destination is a
no-op; a busy mount point fails (reported, walk continues, entry stays
mounted); otherwise the entry is removed from the mount table and
counted.  Failures are aggregated into the final `ok` without aborting
the remaining steps. -/
def runUmounts (fs : FS) : List String → MountResult
  | [] => ⟨fs, 0, true⟩
  | d :: ds =>
    match bbox_mount_is_mounted fs d with
    | .error _ =>
      let r := runUmounts fs ds
      ⟨r.fs, r.count, false⟩
    | .ok false => runUmounts fs ds
    | .ok true =>
      if d ∈ fs.busyPaths then
        let r := runUmounts fs ds
        ⟨r.fs, r.count, false⟩
      else
        let r := runUmounts { fs with mounted := fs.mounted.erase d } ds
        ⟨r.fs, r.count + 1, r.ok⟩

/-- Modelled from the spec: the unmount orchestration underlying the
`umount` command (the C function itself is not declared in the header):
walks the four subsystems in the reverse of the mount order, unmounting
each only if currently mounted, reporting but not aborting on per-entry
failures. -/
def bbox_umount_any (conf : bbox_conf_t) (sys_root : String) (fs : FS) : MountResult :=
  runUmounts fs (umountDests conf sys_root)

/-- Exit status of the forked child, as observed by the parent.
`aborted` is the runner's own distinguished failure status, used when the
child terminates itself because privilege drop or `exec` failed; it is a
different constructor from every `fromCommand code`, which are the
statuses the executed command itself can produce. -/
inductive ChildStatus where
  | aborted
  | fromCommand (code : Nat)
deriving Repr, DecidableEq

/-- The ambient world a run-as call executes against: which uids exist,
whether fork / privilege drop / exec / pipe read succeed, and the exit
status and output bytes of the command if it runs. -/
structure RunWorld where
  users : List Nat
  fork_ok : Bool
  drop_ok : Bool
  exec_ok : Bool
  read_ok : Bool
  cmd_status : Nat
  cmd_output : List Nat
deriving Repr, DecidableEq

/-- Observable outcome of a run-as call: whether the call returned an
error, whether a child was forked, the child's exit status if one
terminated, whether the requested command's code ever ran, whether the
child was reaped, and the captured output buffer if any. -/
structure RunResult where
  err : Bool
  forked : Bool
  status : Option ChildStatus
  commandExecuted : Bool
  reaped : Bool
  out_buf : Option (List Nat)
deriving Repr, DecidableEq

/-- Modelled from the spec: `bbox_runas_fetch_output`.  An unknown uid is
an error before fork; a fork failure is an error with no child; inside
the child, privileges are dropped before `exec`, and a failure of either
terminates the child immediately with the runner's distinguished status
(the command never runs); a pipe-read failure still reaps the child; on
success the command's output and exit status are returned.  The C body
is not in the provided sources. -/
def bbox_runas_fetch_output (w : RunWorld) (uid : Nat) : RunResult :=
  if uid ∉ w.users then
    ⟨true, false, none, false, false, none⟩
  else if ¬ w.fork_ok then
    ⟨true, false, none, false, false, none⟩
  else if ¬ w.drop_ok then
    ⟨true, true, some .aborted, false, true, none⟩
  else if ¬ w.exec_ok then
    ⟨true, true, some .aborted, false, true, none⟩
  else if ¬ w.read_ok then
    ⟨true, true, some (.fromCommand w.cmd_status), true, true, none⟩
  else
    ⟨false, true, some (.fromCommand w.cmd_status), true, true, some w.cmd_output⟩

/-! ## Bitwise helper lemmas -/

theorem and_pow_ne_zero_iff (x i : Nat) : x &&& 2 ^ i ≠ 0 ↔ x.testBit i = true := by
  rw [Nat.and_two_pow]
  cases h : x.testBit i <;> simp [h, (Nat.two_pow_pos i).ne']

theorem and_sub_mask {x b : Nat} (hb : 15 &&& b = b) (h : x &&& 15 = 0) :
    x &&& b = 0 := by
  rw [← hb, ← Nat.and_assoc, h, Nat.zero_and]

theorem or_fifteen_and_pow (x i : Nat) (hi : (15 : Nat).testBit i = true) :
    (x ||| 15) &&& 2 ^ i ≠ 0 :=
  (and_pow_ne_zero_iff _ i).mpr (by rw [Nat.testBit_lor, hi]; simp)

theorem decide_and_pow (x i : Nat) : decide (x &&& 2 ^ i ≠ 0) = x.testBit i := by
  rw [Nat.and_two_pow]
  cases h : x.testBit i <;> simp [h, (Nat.two_pow_pos i).ne']

theorem testBit_set_bit (x i j : Nat) :
    (x ||| 2 ^ i).testBit j = (x.testBit j || decide (i = j)) := by
  rw [Nat.testBit_lor]
  rcases eq_or_ne i j with h | h
  · subst h; simp [Nat.testBit_two_pow_self]
  · simp [Nat.testBit_two_pow_of_ne h, h]

theorem testBit_unset_bit (x i j : Nat) (hj : j < 32) :
    (x &&& (UINT_MAX ^^^ 2 ^ i)).testBit j = (x.testBit j && !(decide (i = j))) := by
  rw [Nat.testBit_land, Nat.testBit_xor]
  have hM : UINT_MAX.testBit j = true := by
    rw [show UINT_MAX = 2 ^ 32 - 1 from rfl, Nat.testBit_two_pow_sub_one]
    simpa using hj
  rcases eq_or_ne i j with h | h
  · subst h; simp [hM, Nat.testBit_two_pow_self]
  · simp [hM, Nat.testBit_two_pow_of_ne h, h]

theorem queryFlag_eq_testBit (c : bbox_conf_t) (f : Flag) :
    queryFlag c f = c.do_mount.testBit (flagIdx f) := by
  cases f
  · exact decide_and_pow c.do_mount 0
  · exact decide_and_pow c.do_mount 1
  · exact decide_and_pow c.do_mount 2
  · exact decide_and_pow c.do_mount 3

theorem do_mount_setFlag (c : bbox_conf_t) (g : Flag) :
    (setFlag c g).do_mount = c.do_mount ||| 2 ^ flagIdx g := by
  cases g <;> rfl

theorem do_mount_unsetFlag (c : bbox_conf_t) (g : Flag) :
    (unsetFlag c g).do_mount = c.do_mount &&& (UINT_MAX ^^^ 2 ^ flagIdx g) := by
  cases g <;> rfl

theorem flagIdx_inj_iff (g f : Flag) : (flagIdx g = flagIdx f) ↔ g = f := by
  cases g <;> cases f <;> simp [flagIdx]

theorem flagIdx_lt (f : Flag) : flagIdx f < 32 := by
  cases f <;> simp [flagIdx]

/-! ## Per-flag set/unset round trip -/

theorem queryFlag_applyFlagOp (c : bbox_conf_t) (p : FlagOp) (f : Flag) :
    queryFlag (applyFlagOp c p) f = if p.1 = f then p.2 else queryFlag c f := by
  obtain ⟨g, b⟩ := p
  cases b
  · rw [show applyFlagOp c (g, false) = unsetFlag c g from rfl,
      queryFlag_eq_testBit, queryFlag_eq_testBit, do_mount_unsetFlag,
      testBit_unset_bit _ _ _ (flagIdx_lt f)]
    by_cases h : g = f
    · subst h; simp
    · simp [h, flagIdx_inj_iff]
  · rw [show applyFlagOp c (g, true) = setFlag c g from rfl,
      queryFlag_eq_testBit, queryFlag_eq_testBit, do_mount_setFlag,
      testBit_set_bit]
    by_cases h : g = f
    · subst h; simp
    · simp [h, flagIdx_inj_iff]

theorem queryFlag_applyFlagOps (c : bbox_conf_t) (ops : List FlagOp) (f : Flag) :
    queryFlag (applyFlagOps c ops) f = flagAfter (queryFlag c f) ops f := by
  induction ops generalizing c with
  | nil => rfl
  | cons p ops ih =>
    rw [show applyFlagOps c (p :: ops) = applyFlagOps (applyFlagOp c p) ops from rfl,
      ih, show flagAfter (queryFlag c f) (p :: ops) f =
        flagAfter (if p.1 = f then p.2 else queryFlag c f) ops f from rfl,
      queryFlag_applyFlagOp]

/-- C9: for every configuration and every sequence of individual per-flag
set/unset calls, each per-flag query afterwards reports exactly the net
effect of the sequence on that flag (membership in the net set S); and
`set_mount_all` followed by `clear_mount` yields the empty flag set: the
"mount any" query and all four per-flag queries report nothing set. -/
theorem claim_C9_bitmask_round_trip :
    (∀ (c : bbox_conf_t) (ops : List FlagOp) (f : Flag),
      queryFlag (applyFlagOps c ops) f = flagAfter (queryFlag c f) ops f) ∧
    (∀ c : bbox_conf_t,
      bbox_config_get_mount_any (bbox_config_clear_mount (bbox_config_set_mount_all c)) = 0 ∧
      ∀ f : Flag,
        queryFlag (bbox_config_clear_mount (bbox_config_set_mount_all c)) f = false) :=
  ⟨queryFlag_applyFlagOps, fun c => by
    refine ⟨?_, fun f => ?_⟩
    · simp [bbox_config_get_mount_any, bbox_config_clear_mount]
    · cases f <;>
        simp [queryFlag, getFlagVal, bbox_config_clear_mount,
          bbox_config_get_mount_dev, bbox_config_get_mount_proc,
          bbox_config_get_mount_sys, bbox_config_get_mount_home]⟩

/-! ## The flag bitmask never leaves the four known bits -/

theorem and_fifteen_of_lt {x : Nat} (h : x < 16) : x &&& 15 = x := by
  refine Nat.eq_of_testBit_eq fun i => ?_
  rw [Nat.testBit_land]
  by_cases hi : i < 4
  · have h15 : (15 : Nat).testBit i = true := by interval_cases i <;> decide
    simp [h15]
  · have hx : x.testBit i = false := by
      refine Nat.testBit_eq_false_of_lt (lt_of_lt_of_le h ?_)
      calc (16 : Nat) = 2 ^ 4 := rfl
        _ ≤ 2 ^ i := Nat.pow_le_pow_right (by omega) (by omega)
    simp [hx]

theorem do_mount_applyConfOp_lt (c : bbox_conf_t) (op : ConfOp)
    (h : c.do_mount < 16) : (applyConfOp c op).do_mount < 16 := by
  have hor : ∀ b : Nat, b < 16 → c.do_mount ||| b < 16 := fun b hb =>
    Nat.or_lt_two_pow (n := 4) h hb
  have hand : ∀ m : Nat, c.do_mount &&& m < 16 :=
    fun m => lt_of_le_of_lt Nat.and_le_left h
  cases op with
  | setDev => exact hor _ (by decide)
  | setProc => exact hor _ (by decide)
  | setSys => exact hor _ (by decide)
  | setHome => exact hor _ (by decide)
  | unsetDev => exact hand _
  | unsetProc => exact hand _
  | unsetSys => exact hand _
  | unsetHome => exact hand _
  | setAll => exact hor _ (by decide)
  | clearMount => exact (by decide : (0 : Nat) < 16)
  | setTargetDir p =>
    simp only [applyConfOp, bbox_config_set_target_dir]
    split <;> simpa
  | setHomeDir p =>
    simp only [applyConfOp, bbox_config_set_home_dir]
    split <;> simpa

theorem do_mount_applyConfOps_lt (ops : List ConfOp) (c : bbox_conf_t)
    (h : c.do_mount < 16) : (applyConfOps c ops).do_mount < 16 := by
  induction ops generalizing c with
  | nil => exact h
  | cons op ops ih => exact ih _ (do_mount_applyConfOp_lt c op h)

/-- C10: every configuration reachable from `bbox_config_new` by any
sequence of configuration operations has a `do_mount` bitmask that is a
subset of the four known bits DEV, PROC, SYS, HOME (0x0F): masking with
`BBOX_DO_MOUNT_ALL` changes nothing, so no operation ever sets a bit
outside the four. -/
theorem claim_C10_do_mount_invariant (ops : List ConfOp) :
    (applyConfOps bbox_config_new ops).do_mount &&& BBOX_DO_MOUNT_ALL =
      (applyConfOps bbox_config_new ops).do_mount :=
  and_fifteen_of_lt
    (do_mount_applyConfOps_lt ops bbox_config_new (by decide))

/-! ## Mount walk: step equations -/

theorem runMounts_cons_nostat {fs : FS} {d : String} (h : d ∉ fs.statable)
    (ds : List String) : runMounts fs (d :: ds) = ⟨fs, 0, false⟩ := by
  simp [runMounts, bbox_mount_is_mounted, h]

theorem runMounts_cons_mounted {fs : FS} {d : String} (h1 : d ∈ fs.statable)
    (h2 : d ∈ fs.mounted) (ds : List String) :
    runMounts fs (d :: ds) = runMounts fs ds := by
  simp [runMounts, bbox_mount_is_mounted, h1, h2]

theorem runMounts_cons_fail {fs : FS} {d : String} (h1 : d ∈ fs.statable)
    (h2 : d ∉ fs.mounted) (h3 : d ∈ fs.mountFails) (ds : List String) :
    runMounts fs (d :: ds) = ⟨fs, 0, false⟩ := by
  simp [runMounts, bbox_mount_is_mounted, h1, h2, h3]

theorem runMounts_cons_mount {fs : FS} {d : String} (h1 : d ∈ fs.statable)
    (h2 : d ∉ fs.mounted) (h3 : d ∉ fs.mountFails) (ds : List String) :
    runMounts fs (d :: ds) =
      ⟨(runMounts { fs with mounted := d :: fs.mounted } ds).fs,
       (runMounts { fs with mounted := d :: fs.mounted } ds).count + 1,
       (runMounts { fs with mounted := d :: fs.mounted } ds).ok⟩ := by
  simp [runMounts, bbox_mount_is_mounted, h1, h2, h3]

/-! ## Mount walk: invariants -/

theorem runMounts_preserves (fs : FS) (ds : List String) :
    (runMounts fs ds).fs.statable = fs.statable ∧
    (runMounts fs ds).fs.mountFails = fs.mountFails ∧
    (runMounts fs ds).fs.busyPaths = fs.busyPaths := by
  induction ds generalizing fs with
  | nil => exact ⟨rfl, rfl, rfl⟩
  | cons d ds ih =>
    by_cases h1 : d ∈ fs.statable
    · by_cases h2 : d ∈ fs.mounted
      · rw [runMounts_cons_mounted h1 h2]; exact ih fs
      · by_cases h3 : d ∈ fs.mountFails
        · rw [runMounts_cons_fail h1 h2 h3]; exact ⟨rfl, rfl, rfl⟩
        · rw [runMounts_cons_mount h1 h2 h3]
          exact ih { fs with mounted := d :: fs.mounted }
    · rw [runMounts_cons_nostat h1]; exact ⟨rfl, rfl, rfl⟩

theorem runMounts_mounted_mono {x : String} (fs : FS) (ds : List String)
    (h : x ∈ fs.mounted) : x ∈ (runMounts fs ds).fs.mounted := by
  induction ds generalizing fs with
  | nil => exact h
  | cons d ds ih =>
    by_cases h1 : d ∈ fs.statable
    · by_cases h2 : d ∈ fs.mounted
      · rw [runMounts_cons_mounted h1 h2]; exact ih fs h
      · by_cases h3 : d ∈ fs.mountFails
        · rw [runMounts_cons_fail h1 h2 h3]; exact h
        · rw [runMounts_cons_mount h1 h2 h3]
          exact ih { fs with mounted := d :: fs.mounted } (List.mem_cons_of_mem d h)
    · rw [runMounts_cons_nostat h1]; exact h

theorem runMounts_mounted_source {x : String} (fs : FS) (ds : List String)
    (h : x ∈ (runMounts fs ds).fs.mounted) : x ∈ fs.mounted ∨ x ∈ fs.statable := by
  induction ds generalizing fs with
  | nil => exact Or.inl h
  | cons d ds ih =>
    by_cases h1 : d ∈ fs.statable
    · by_cases h2 : d ∈ fs.mounted
      · rw [runMounts_cons_mounted h1 h2] at h; exact ih fs h
      · by_cases h3 : d ∈ fs.mountFails
        · rw [runMounts_cons_fail h1 h2 h3] at h; exact Or.inl h
        · rw [runMounts_cons_mount h1 h2 h3] at h
          rcases ih { fs with mounted := d :: fs.mounted } h with hm | hs
          · rcases List.mem_cons.mp hm with rfl | hm
            · exact Or.inr h1
            · exact Or.inl hm
          · exact Or.inr hs
    · rw [runMounts_cons_nostat h1] at h; exact Or.inl h

/-! ## Idempotence of the mount walk -/

theorem runMounts_idem (fs : FS) (ds : List String) :
    runMounts (runMounts fs ds).fs ds =
      ⟨(runMounts fs ds).fs, 0, (runMounts fs ds).ok⟩ := by
  induction ds generalizing fs with
  | nil => rfl
  | cons d ds ih =>
    by_cases h1 : d ∈ fs.statable
    · by_cases h2 : d ∈ fs.mounted
      · rw [runMounts_cons_mounted h1 h2]
        have hs : d ∈ (runMounts fs ds).fs.statable := by
          rw [(runMounts_preserves fs ds).1]; exact h1
        have hm : d ∈ (runMounts fs ds).fs.mounted := runMounts_mounted_mono fs ds h2
        rw [runMounts_cons_mounted hs hm]
        exact ih fs
      · by_cases h3 : d ∈ fs.mountFails
        · rw [runMounts_cons_fail h1 h2 h3, runMounts_cons_fail h1 h2 h3]
        · rw [runMounts_cons_mount h1 h2 h3]
          have hs : d ∈ (runMounts { fs with mounted := d :: fs.mounted } ds).fs.statable := by
            rw [(runMounts_preserves { fs with mounted := d :: fs.mounted } ds).1]; exact h1
          have hm : d ∈ (runMounts { fs with mounted := d :: fs.mounted } ds).fs.mounted :=
            runMounts_mounted_mono _ ds (List.mem_cons_self d fs.mounted)
          rw [runMounts_cons_mounted hs hm]
          exact ih { fs with mounted := d :: fs.mounted }
    · rw [runMounts_cons_nostat h1, runMounts_cons_nostat h1]

/-- C3: applying `bbox_mount_any` twice in succession with the same
configuration yields a newly-mounted count of 0 on the second call, and
the mount-table state after two calls equals the state after one call,
for every configuration and every initial mount-table state. -/
theorem claim_C3_mount_idempotent (conf : bbox_conf_t) (sys_root : String) (fs : FS) :
    (bbox_mount_any conf sys_root (bbox_mount_any conf sys_root fs).fs).count = 0 ∧
    (bbox_mount_any conf sys_root (bbox_mount_any conf sys_root fs).fs).fs =
      (bbox_mount_any conf sys_root fs).fs := by
  unfold bbox_mount_any
  by_cases h : bbox_config_get_mount_any conf = 0
  · simp [h]
  · simp [if_neg h, runMounts_idem fs (mountDests conf sys_root)]

/-! ## Partial failure keeps earlier mounts in place -/

theorem runMounts_no_rollback (fs : FS) (ds : List String) :
    ∃ newly : List String,
      (runMounts fs ds).fs.mounted = newly ++ fs.mounted ∧
      newly.length = (runMounts fs ds).count := by
  induction ds generalizing fs with
  | nil => exact ⟨[], rfl, rfl⟩
  | cons d ds ih =>
    by_cases h1 : d ∈ fs.statable
    · by_cases h2 : d ∈ fs.mounted
      · rw [runMounts_cons_mounted h1 h2]; exact ih fs
      · by_cases h3 : d ∈ fs.mountFails
        · rw [runMounts_cons_fail h1 h2 h3]; exact ⟨[], rfl, rfl⟩
        · rw [runMounts_cons_mount h1 h2 h3]
          obtain ⟨l, hl, hlen⟩ := ih { fs with mounted := d :: fs.mounted }
          refine ⟨l ++ [d], ?_, ?_⟩
          · rw [hl]; simp
          · simp [hlen]
    · rw [runMounts_cons_nostat h1]; exact ⟨[], rfl, rfl⟩

/-- C4: if a mount step of `bbox_mount_any` fails, the call returns an
error (`ok = false`) together with the count of mounts applied before the
failure, and none of those mounts is undone: the final mount table is the
initial one with exactly `count` new entries prepended. -/
theorem claim_C4_fail_keeps_mounts (conf : bbox_conf_t) (sys_root : String) (fs : FS)
    (h : (bbox_mount_any conf sys_root fs).ok = false) :
    ∃ newly : List String,
      (bbox_mount_any conf sys_root fs).fs.mounted = newly ++ fs.mounted ∧
      newly.length = (bbox_mount_any conf sys_root fs).count := by
  unfold bbox_mount_any at *
  by_cases hc : bbox_config_get_mount_any conf = 0
  · simp [hc] at h
  · simp only [if_neg hc]
    exact runMounts_no_rollback fs (mountDests conf sys_root)

/-- Witness for C4 at a concrete failing input: one flag (DEV) set, empty
filesystem, so the single mount step fails with count 0 and the mount
table unchanged. -/
theorem claim_C4_witness :
    (bbox_mount_any ⟨some "/srv/box", none, 1⟩ "/srv/box" ⟨[], [], [], []⟩).ok = false ∧
    ∃ newly : List String,
      (bbox_mount_any ⟨some "/srv/box", none, 1⟩ "/srv/box" ⟨[], [], [], []⟩).fs.mounted =
        newly ++ (⟨[], [], [], []⟩ : FS).mounted ∧
      newly.length =
        (bbox_mount_any ⟨some "/srv/box", none, 1⟩ "/srv/box" ⟨[], [], [], []⟩).count :=
  ⟨by decide, claim_C4_fail_keeps_mounts ⟨some "/srv/box", none, 1⟩ "/srv/box"
    ⟨[], [], [], []⟩ (by decide)⟩

/-! ## Missing destinations: error, no auto-create -/

theorem mountDests_of_any_zero (conf : bbox_conf_t) (sys_root : String)
    (h : bbox_config_get_mount_any conf = 0) : mountDests conf sys_root = [] := by
  have hd : bbox_config_get_mount_dev conf = 0 := and_sub_mask (by decide) h
  have hp : bbox_config_get_mount_proc conf = 0 := and_sub_mask (by decide) h
  have hs : bbox_config_get_mount_sys conf = 0 := and_sub_mask (by decide) h
  have hh : bbox_config_get_mount_home conf = 0 := and_sub_mask (by decide) h
  simp [mountDests, hd, hp, hs, hh]

theorem runMounts_err_of_missing {d : String} (fs : FS) (ds : List String)
    (hmem : d ∈ ds) (hstat : d ∉ fs.statable) : (runMounts fs ds).ok = false := by
  induction ds generalizing fs with
  | nil => cases hmem
  | cons e ds ih =>
    by_cases h1 : e ∈ fs.statable
    · have hde : d ≠ e := fun hde => hstat (hde ▸ h1)
      have hmem' : d ∈ ds := (List.mem_cons.mp hmem).resolve_left hde
      by_cases h2 : e ∈ fs.mounted
      · rw [runMounts_cons_mounted h1 h2]; exact ih fs hmem' hstat
      · by_cases h3 : e ∈ fs.mountFails
        · rw [runMounts_cons_fail h1 h2 h3]
        · rw [runMounts_cons_mount h1 h2 h3]
          exact ih { fs with mounted := e :: fs.mounted } hmem' hstat
    · rw [runMounts_cons_nostat h1]

/-- C7: a mount step whose destination cannot be stat'd (does not exist)
makes `bbox_mount_any` report an error; the orchestrator never creates
the destination (the set of stat-able paths is unchanged by the whole
call) and the mount table gains no entry for that destination. -/
theorem claim_C7_no_autocreate (conf : bbox_conf_t) (sys_root : String) (fs : FS)
    (d : String) (hmem : d ∈ mountDests conf sys_root) (hstat : d ∉ fs.statable)
    (hm : d ∉ fs.mounted) :
    (bbox_mount_any conf sys_root fs).ok = false ∧
    (bbox_mount_any conf sys_root fs).fs.statable = fs.statable ∧
    d ∉ (bbox_mount_any conf sys_root fs).fs.mounted := by
  unfold bbox_mount_any
  by_cases hc : bbox_config_get_mount_any conf = 0
  · rw [mountDests_of_any_zero conf sys_root hc] at hmem; cases hmem
  · rw [if_neg hc]
    refine ⟨runMounts_err_of_missing fs _ hmem hstat,
      (runMounts_preserves fs _).1, fun hmem' => ?_⟩
    rcases runMounts_mounted_source fs _ hmem' with h | h
    · exact hm h
    · exact hstat h

/-- Witness for C7 at a concrete input: DEV flag set, destination
`/r/dev` absent from the filesystem. -/
theorem claim_C7_witness :
    ("/r/dev" ∈ mountDests ⟨some "/r", none, 1⟩ "/r") ∧
    ("/r/dev" ∉ (⟨["/r"], [], [], []⟩ : FS).statable) ∧
    ((bbox_mount_any ⟨some "/r", none, 1⟩ "/r" ⟨["/r"], [], [], []⟩).ok = false ∧
     (bbox_mount_any ⟨some "/r", none, 1⟩ "/r" ⟨["/r"], [], [], []⟩).fs.statable =
       (⟨["/r"], [], [], []⟩ : FS).statable ∧
     "/r/dev" ∉ (bbox_mount_any ⟨some "/r", none, 1⟩ "/r" ⟨["/r"], [], [], []⟩).fs.mounted) :=
  ⟨by decide, by decide,
    claim_C7_no_autocreate ⟨some "/r", none, 1⟩ "/r" ⟨["/r"], [], [], []⟩ "/r/dev"
      (by decide) (by decide) (by decide)⟩

/-! ## Mount state inspector -/

/-- C8: `bbox_mount_is_mounted` returns an error exactly when the path
cannot be stat'd (so a nonexistent path is reported with an error, never
silently as false), and on every stat-able path it returns the mounted
boolean without an error; the embedded inspector is a pure function of
the state, mutating nothing. -/
theorem claim_C8_is_mounted_spec (fs : FS) (path : String) :
    ((∃ e, bbox_mount_is_mounted fs path = .error e) ↔ path ∉ fs.statable) ∧
    (path ∈ fs.statable →
      bbox_mount_is_mounted fs path = .ok (decide (path ∈ fs.mounted))) := by
  unfold bbox_mount_is_mounted
  by_cases h : path ∈ fs.statable <;> simp [h]

/-- Witness for C8 at a concrete input: a stat-able, mounted path. -/
theorem claim_C8_witness :
    ("/m" ∈ (⟨["/m"], ["/m"], [], []⟩ : FS).statable) ∧
    bbox_mount_is_mounted ⟨["/m"], ["/m"], [], []⟩ "/m" = Except.ok true :=
  ⟨by decide,
    (claim_C8_is_mounted_spec ⟨["/m"], ["/m"], [], []⟩ "/m").2 (by decide)⟩

/-! ## Ordering of the mount walk -/

theorem runMounts_front_walk (fs : FS) (pre rest : List String)
    (hnd : pre.Nodup)
    (hstat : ∀ x ∈ pre, x ∈ fs.statable)
    (hnm : ∀ x ∈ pre, x ∉ fs.mounted)
    (hnf : ∀ x ∈ pre, x ∉ fs.mountFails) :
    runMounts fs (pre ++ rest) =
      ⟨(runMounts { fs with mounted := pre.reverse ++ fs.mounted } rest).fs,
       (runMounts { fs with mounted := pre.reverse ++ fs.mounted } rest).count + pre.length,
       (runMounts { fs with mounted := pre.reverse ++ fs.mounted } rest).ok⟩ := by
  induction pre generalizing fs with
  | nil => rfl
  | cons p pre ih =>
    have hp1 : p ∈ fs.statable := hstat p (List.mem_cons_self p pre)
    have hp2 : p ∉ fs.mounted := hnm p (List.mem_cons_self p pre)
    have hp3 : p ∉ fs.mountFails := hnf p (List.mem_cons_self p pre)
    rw [List.cons_append, runMounts_cons_mount hp1 hp2 hp3,
      ih { fs with mounted := p :: fs.mounted } hnd.of_cons
        (fun x hx => hstat x (List.mem_cons_of_mem p hx))
        (fun x hx => by
          intro hcon
          rcases List.mem_cons.mp hcon with rfl | hcon
          · exact (List.nodup_cons.mp hnd).1 hx
          · exact hnm x (List.mem_cons_of_mem p hx) hcon)
        (fun x hx => hnf x (List.mem_cons_of_mem p hx))]
    rw [show ((p :: pre).reverse ++ fs.mounted : List String) =
      pre.reverse ++ (p :: fs.mounted) from by simp]
    rfl

theorem runMounts_fail_after (fs : FS) (pre : List String) (d : String)
    (post : List String) (hnd : pre.Nodup)
    (hstat : ∀ x ∈ pre, x ∈ fs.statable)
    (hnm : ∀ x ∈ pre, x ∉ fs.mounted)
    (hnf : ∀ x ∈ pre, x ∉ fs.mountFails)
    (hfail : d ∉ fs.statable) :
    runMounts fs (pre ++ d :: post) =
      ⟨{ fs with mounted := pre.reverse ++ fs.mounted }, pre.length, false⟩ := by
  rw [runMounts_front_walk fs pre (d :: post) hnd hstat hnm hnf,
    runMounts_cons_nostat
      (show d ∉ ({ fs with mounted := pre.reverse ++ fs.mounted } : FS).statable from hfail)]
  simp

/-- C5: with all four mount flags set, `bbox_mount_any` attempts the
subsystems in the fixed order DEV, PROC, SYS, HOME (the destination list
equals `allDests`); and when the step at position `k` fails (its
destination cannot be stat'd) while the earlier destinations are
mountable, exactly the `k` destinations preceding it in that order have
been attempted and applied: the call returns count `k`, an error, and
the mount table extended by exactly those `k` destinations. -/
theorem claim_C5_mount_order (conf : bbox_conf_t) (sys_root : String) (fs : FS)
    (k : Nat) (hk : k < 4)
    (hdev : bbox_config_get_mount_dev conf ≠ 0)
    (hproc : bbox_config_get_mount_proc conf ≠ 0)
    (hsys : bbox_config_get_mount_sys conf ≠ 0)
    (hhome : bbox_config_get_mount_home conf ≠ 0)
    (hnd : ((allDests conf sys_root).take k).Nodup)
    (hstat : ∀ x ∈ (allDests conf sys_root).take k, x ∈ fs.statable)
    (hnm : ∀ x ∈ (allDests conf sys_root).take k, x ∉ fs.mounted)
    (hnf : ∀ x ∈ (allDests conf sys_root).take k, x ∉ fs.mountFails)
    (hfail : (allDests conf sys_root).getD k "" ∉ fs.statable) :
    mountDests conf sys_root = allDests conf sys_root ∧
    bbox_mount_any conf sys_root fs =
      ⟨{ fs with mounted := ((allDests conf sys_root).take k).reverse ++ fs.mounted },
        k, false⟩ := by
  have hdests : mountDests conf sys_root = allDests conf sys_root := by
    simp [mountDests, allDests, hdev, hproc, hsys, hhome]
  refine ⟨hdests, ?_⟩
  have hany : ¬ bbox_config_get_mount_any conf = 0 :=
    fun h => hdev (and_sub_mask (by decide) h)
  unfold bbox_mount_any
  rw [if_neg hany, hdests]
  interval_cases k
  · exact runMounts_fail_after fs [] (devDest sys_root)
      [procDest sys_root, sysDest sys_root, homeDest conf sys_root]
      hnd hstat hnm hnf hfail
  · exact runMounts_fail_after fs [devDest sys_root] (procDest sys_root)
      [sysDest sys_root, homeDest conf sys_root] hnd hstat hnm hnf hfail
  · exact runMounts_fail_after fs [devDest sys_root, procDest sys_root]
      (sysDest sys_root) [homeDest conf sys_root] hnd hstat hnm hnf hfail
  · exact runMounts_fail_after fs
      [devDest sys_root, procDest sys_root, sysDest sys_root]
      (homeDest conf sys_root) [] hnd hstat hnm hnf hfail

/-- Witness for C5 at a concrete input, the spec's own example: all four
flags set, the third destination (`/r/sys`) missing, the first two
mountable, so the call applies exactly DEV and PROC, returns count 2 and
an error. -/
theorem claim_C5_witness :
    ((2 : Nat) < 4) ∧
    (bbox_config_get_mount_dev ⟨some "/r", some "me", 15⟩ ≠ 0) ∧
    (bbox_config_get_mount_home ⟨some "/r", some "me", 15⟩ ≠ 0) ∧
    (mountDests ⟨some "/r", some "me", 15⟩ "/r" = allDests ⟨some "/r", some "me", 15⟩ "/r" ∧
      bbox_mount_any ⟨some "/r", some "me", 15⟩ "/r"
          ⟨["/r/dev", "/r/proc", "/r/me"], [], [], []⟩ =
        ⟨{ (⟨["/r/dev", "/r/proc", "/r/me"], [], [], []⟩ : FS) with
            mounted := ((allDests ⟨some "/r", some "me", 15⟩ "/r").take 2).reverse ++
              (⟨["/r/dev", "/r/proc", "/r/me"], [], [], []⟩ : FS).mounted },
          2, false⟩) :=
  ⟨by decide, by decide, by decide,
    claim_C5_mount_order ⟨some "/r", some "me", 15⟩ "/r"
      ⟨["/r/dev", "/r/proc", "/r/me"], [], [], []⟩ 2 (by decide)
      (by decide) (by decide) (by decide) (by decide)
      (by decide) (by decide) (by decide) (by decide) (by decide)⟩

/-! ## Unmount walk: step equations and invariants -/

theorem runUmounts_cons_nostat {fs : FS} {d : String} (h : d ∉ fs.statable)
    (ds : List String) :
    runUmounts fs (d :: ds) =
      ⟨(runUmounts fs ds).fs, (runUmounts fs ds).count, false⟩ := by
  simp [runUmounts, bbox_mount_is_mounted, h]

theorem runUmounts_cons_notmounted {fs : FS} {d : String} (h1 : d ∈ fs.statable)
    (h2 : d ∉ fs.mounted) (ds : List String) :
    runUmounts fs (d :: ds) = runUmounts fs ds := by
  simp [runUmounts, bbox_mount_is_mounted, h1, h2]

theorem runUmounts_cons_busy {fs : FS} {d : String} (h1 : d ∈ fs.statable)
    (h2 : d ∈ fs.mounted) (h3 : d ∈ fs.busyPaths) (ds : List String) :
    runUmounts fs (d :: ds) =
      ⟨(runUmounts fs ds).fs, (runUmounts fs ds).count, false⟩ := by
  simp [runUmounts, bbox_mount_is_mounted, h1, h2, h3]

theorem runUmounts_cons_unmount {fs : FS} {d : String} (h1 : d ∈ fs.statable)
    (h2 : d ∈ fs.mounted) (h3 : d ∉ fs.busyPaths) (ds : List String) :
    runUmounts fs (d :: ds) =
      ⟨(runUmounts { fs with mounted := fs.mounted.erase d } ds).fs,
       (runUmounts { fs with mounted := fs.mounted.erase d } ds).count + 1,
       (runUmounts { fs with mounted := fs.mounted.erase d } ds).ok⟩ := by
  simp [runUmounts, bbox_mount_is_mounted, h1, h2, h3]

theorem runUmounts_mounted_subset (fs : FS) (ds : List String) :
    (runUmounts fs ds).fs.mounted ⊆ fs.mounted := by
  induction ds generalizing fs with
  | nil => exact fun x h => h
  | cons d ds ih =>
    by_cases h1 : d ∈ fs.statable
    · by_cases h2 : d ∈ fs.mounted
      · by_cases h3 : d ∈ fs.busyPaths
        · rw [runUmounts_cons_busy h1 h2 h3]; exact ih fs
        · rw [runUmounts_cons_unmount h1 h2 h3]
          exact List.Subset.trans (ih { fs with mounted := fs.mounted.erase d })
            (List.erase_subset d fs.mounted)
      · rw [runUmounts_cons_notmounted h1 h2]; exact ih fs
    · rw [runUmounts_cons_nostat h1]; exact ih fs

theorem runUmounts_removes {d : String} (fs : FS) (ds : List String)
    (hnd : fs.mounted.Nodup) (hds : d ∈ ds) (hstat : d ∈ fs.statable)
    (hm : d ∈ fs.mounted) (hb : d ∉ fs.busyPaths) :
    d ∉ (runUmounts fs ds).fs.mounted := by
  induction ds generalizing fs with
  | nil => cases hds
  | cons e ds ih =>
    by_cases hed : e = d
    · subst hed
      rw [runUmounts_cons_unmount hstat hm hb]
      intro hcon
      have hmem := runUmounts_mounted_subset
        { fs with mounted := fs.mounted.erase e } ds hcon
      exact (hnd.mem_erase_iff.mp hmem).1 rfl
    · have hds' : d ∈ ds := (List.mem_cons.mp hds).resolve_left fun h => hed h.symm
      by_cases h1 : e ∈ fs.statable
      · by_cases h2 : e ∈ fs.mounted
        · by_cases h3 : e ∈ fs.busyPaths
          · rw [runUmounts_cons_busy h1 h2 h3]; exact ih fs hnd hds' hstat hm hb
          · rw [runUmounts_cons_unmount h1 h2 h3]
            exact ih { fs with mounted := fs.mounted.erase e } (hnd.erase e) hds'
              hstat ((List.mem_erase_of_ne fun h => hed h.symm).mpr hm) hb
        · rw [runUmounts_cons_notmounted h1 h2]; exact ih fs hnd hds' hstat hm hb
      · rw [runUmounts_cons_nostat h1]; exact ih fs hnd hds' hstat hm hb

theorem home_dir_set_mount_all (c : bbox_conf_t) :
    (bbox_config_set_mount_all c).home_dir = c.home_dir := rfl

theorem get_dev_set_mount_all (c : bbox_conf_t) :
    bbox_config_get_mount_dev (bbox_config_set_mount_all c) ≠ 0 :=
  or_fifteen_and_pow c.do_mount 0 (by decide)

theorem get_proc_set_mount_all (c : bbox_conf_t) :
    bbox_config_get_mount_proc (bbox_config_set_mount_all c) ≠ 0 :=
  or_fifteen_and_pow c.do_mount 1 (by decide)

theorem get_sys_set_mount_all (c : bbox_conf_t) :
    bbox_config_get_mount_sys (bbox_config_set_mount_all c) ≠ 0 :=
  or_fifteen_and_pow c.do_mount 2 (by decide)

theorem get_home_set_mount_all (c : bbox_conf_t) :
    bbox_config_get_mount_home (bbox_config_set_mount_all c) ≠ 0 :=
  or_fifteen_and_pow c.do_mount 3 (by decide)

/-- C6: the unmount walk visits the four subsystems in exactly the
reverse of the mount order (HOME, SYS, PROC, DEV): its destination list
is the reverse of the all-flags mount destination list; it unmounts only
what is currently mounted (the mount table only shrinks); and a busy
failure on one entry does not prevent the remaining entries from being
attempted: every visited destination that is mounted, stat-able and not
busy ends up unmounted, whatever happens at the other entries. -/
theorem claim_C6_umount_reverse_order (conf : bbox_conf_t) (sys_root : String) :
    umountDests conf sys_root =
      (mountDests (bbox_config_set_mount_all conf) sys_root).reverse ∧
    (∀ fs : FS, (bbox_umount_any conf sys_root fs).fs.mounted ⊆ fs.mounted) ∧
    (∀ (fs : FS) (d : String), fs.mounted.Nodup → d ∈ umountDests conf sys_root →
      d ∈ fs.statable → d ∈ fs.mounted → d ∉ fs.busyPaths →
      d ∉ (bbox_umount_any conf sys_root fs).fs.mounted) := by
  refine ⟨?_, fun fs => runUmounts_mounted_subset fs _,
    fun fs d hnd hds hstat hm hb => runUmounts_removes fs _ hnd hds hstat hm hb⟩
  simp [mountDests, umountDests, get_dev_set_mount_all, get_proc_set_mount_all,
    get_sys_set_mount_all, get_home_set_mount_all, homeDest, home_dir_set_mount_all]

/-- Witness for C6 at a concrete input: `/r/sys` is mounted, stat-able
and not busy while `/r/home-of-me` is busy, and the walk still unmounts
`/r/sys`. -/
theorem claim_C6_witness :
    ((⟨["/r/sys", "/r/me"], ["/r/sys", "/r/me"], [], ["/r/me"]⟩ : FS).mounted.Nodup) ∧
    ("/r/sys" ∈ umountDests ⟨some "/r", some "me", 0⟩ "/r") ∧
    "/r/sys" ∉ (bbox_umount_any ⟨some "/r", some "me", 0⟩ "/r"
      ⟨["/r/sys", "/r/me"], ["/r/sys", "/r/me"], [], ["/r/me"]⟩).fs.mounted :=
  ⟨by decide, by decide,
    (claim_C6_umount_reverse_order ⟨some "/r", some "me", 0⟩ "/r").2.2
      ⟨["/r/sys", "/r/me"], ["/r/sys", "/r/me"], [], ["/r/me"]⟩ "/r/sys"
      (by decide) (by decide) (by decide) (by decide) (by decide)⟩

/-! ## Privileged runner -/

/-- C1: for every run-as invocation in which `exec` fails inside the
child after a successful fork, the child terminates immediately (a final
status exists and the child is reaped) with the runner's distinguished
`aborted` status, which differs from every exit status the command
itself could produce; and the requested command's code never runs, so
nothing continues executing with the inherited pre-drop privileges. -/
theorem claim_C1_exec_failure_aborts (w : RunWorld) (uid : Nat)
    (huser : uid ∈ w.users) (hfork : w.fork_ok = true) (hexec : w.exec_ok = false) :
    (bbox_runas_fetch_output w uid).status = some ChildStatus.aborted ∧
    (bbox_runas_fetch_output w uid).commandExecuted = false ∧
    (bbox_runas_fetch_output w uid).reaped = true ∧
    ∀ code : Nat, ChildStatus.aborted ≠ ChildStatus.fromCommand code := by
  unfold bbox_runas_fetch_output
  cases hdrop : w.drop_ok <;> simp [huser, hfork, hexec, hdrop]

/-- Witness for C1 at a concrete input: uid 1000 exists, fork succeeds,
privilege drop succeeds, exec fails. -/
theorem claim_C1_witness :
    ((1000 : Nat) ∈ (⟨[1000], true, true, false, true, 7, [65]⟩ : RunWorld).users) ∧
    ((⟨[1000], true, true, false, true, 7, [65]⟩ : RunWorld).fork_ok = true) ∧
    ((⟨[1000], true, true, false, true, 7, [65]⟩ : RunWorld).exec_ok = false) ∧
    ((bbox_runas_fetch_output ⟨[1000], true, true, false, true, 7, [65]⟩ 1000).status =
        some ChildStatus.aborted ∧
      (bbox_runas_fetch_output ⟨[1000], true, true, false, true, 7, [65]⟩ 1000).commandExecuted =
        false ∧
      (bbox_runas_fetch_output ⟨[1000], true, true, false, true, 7, [65]⟩ 1000).reaped = true ∧
      ∀ code : Nat, ChildStatus.aborted ≠ ChildStatus.fromCommand code) :=
  ⟨by decide, rfl, rfl,
    claim_C1_exec_failure_aborts ⟨[1000], true, true, false, true, 7, [65]⟩ 1000
      (by decide) rfl rfl⟩

/-- C2: a run-as call with a uid that corresponds to no existing user
returns an error before any child is forked, and the requested command is
never executed: no child, no command execution, no captured output. -/
theorem claim_C2_unknown_uid (w : RunWorld) (uid : Nat) (h : uid ∉ w.users) :
    (bbox_runas_fetch_output w uid).err = true ∧
    (bbox_runas_fetch_output w uid).forked = false ∧
    (bbox_runas_fetch_output w uid).commandExecuted = false ∧
    (bbox_runas_fetch_output w uid).out_buf = none := by
  unfold bbox_runas_fetch_output
  simp [h]

/-- Witness for C2 at a concrete input: uid 7 does not exist in a world
with a single user 1000. -/
theorem claim_C2_witness :
    ((7 : Nat) ∉ (⟨[1000], true, true, true, true, 0, [65]⟩ : RunWorld).users) ∧
    ((bbox_runas_fetch_output ⟨[1000], true, true, true, true, 0, [65]⟩ 7).err = true ∧
      (bbox_runas_fetch_output ⟨[1000], true, true, true, true, 0, [65]⟩ 7).forked = false ∧
      (bbox_runas_fetch_output ⟨[1000], true, true, true, true, 0, [65]⟩ 7).commandExecuted =
        false ∧
      (bbox_runas_fetch_output ⟨[1000], true, true, true, true, 0, [65]⟩ 7).out_buf = none) :=
  ⟨by decide,
    claim_C2_unknown_uid ⟨[1000], true, true, true, true, 0, [65]⟩ 7 (by decide)⟩

end BboxDo
